import Mathlib

/-!
Verification development for the query-understanding and ranking core of the
repository: entity extraction (rag_domain/ner_classifier.py), filter building
(rag_domain/optimizer.py) and candidate scoring (rag_domain/search.py).

Modelling conventions:
  * Python strings are modelled as `List Char` (`Str`).  All inputs of interest
    are ASCII after the code's own normalisation, so `Char.toLower` and
    `Char.isAlphanum` agree with Python `str.lower` / `str.isalnum` there.
  * Python `set`s of vocabulary entries are modelled as duplicate-free lists,
    which fixes one iteration order; statements proved below do not depend on
    that order except where a concrete configuration is evaluated.
  * Python `float` scores are modelled as `ℚ`.  Every constant appearing in
    the scoring code is a small decimal, exactly representable, and the
    comparisons performed never witness a rounding difference at these scales.
  * `difflib.SequenceMatcher` is modelled faithfully (no junk heuristic, which
    only activates for sequences of length ≥ 200, far beyond any query word).
-/

set_option maxRecDepth 10000
set_option maxHeartbeats 1000000

/- Rational arithmetic is `@[irreducible]` in the library, which blocks the
elaborator-side evaluation performed by `decide` on concrete runs of the
embedded code; kernel reduction is unaffected.  Restore default reducibility
for this file so that concrete executions can be settled by `decide`. -/
set_option allowUnsafeReducibility true
attribute [local semireducible] Rat.mul Rat.inv Rat.add Rat.sub Rat.div Rat.neg

namespace Pompi

/-- Python strings, modelled as lists of characters. -/
abbrev Str : Type := List Char

/-- Python str.lower (ASCII). -/
def lowerStr (s : Str) : Str := s.map Char.toLower

/-- Python str.upper (ASCII). -/
def upperStr (s : Str) : Str := s.map Char.toUpper

/-- Does `pat` occur in `s` starting at index `i`? -/
def occursAt (pat s : Str) (i : Nat) : Bool := (s.drop i).take pat.length == pat

/-- Worker for `indexFrom`; the fuel dominates the number of start positions. -/
def indexFromGo (pat s : Str) : Nat → Nat → Option Nat
  | 0, _ => none
  | fuel+1, i =>
    if i + pat.length ≤ s.length then
      if occursAt pat s i then some i else indexFromGo pat s fuel (i+1)
    else none

/-- Python str.index / str.find with a start offset: the first position at or
after `start` where `pat` occurs in `s` (`none` when Python returns -1). -/
def indexFrom (pat s : Str) (start : Nat) : Option Nat :=
  indexFromGo pat s (s.length + 1) start

/-- Python `pat in s` substring containment. -/
def containsStr (pat s : Str) : Bool := (indexFrom pat s 0).isSome

/-- Worker for `splitWs`. -/
def splitWsGo : Str → Str → List Str
  | [], acc => if acc.isEmpty then [] else [acc.reverse]
  | c :: rest, acc =>
    if c.isWhitespace then
      if acc.isEmpty then splitWsGo rest [] else acc.reverse :: splitWsGo rest []
    else splitWsGo rest (c :: acc)

/-- Python str.split() with no separator: split on whitespace runs, no empties. -/
def splitWs (s : Str) : List Str := splitWsGo s []

/-- Python str.strip(): drop leading and trailing whitespace. -/
def stripStr (s : Str) : Str :=
  ((s.dropWhile Char.isWhitespace).reverse.dropWhile Char.isWhitespace).reverse

/-- Worker for `splitOnChar`. -/
def splitOnCharGo (sep : Char) : Str → Str → List Str
  | [], acc => [acc.reverse]
  | c :: rest, acc =>
    if c = sep then acc.reverse :: splitOnCharGo sep rest []
    else splitOnCharGo sep rest (c :: acc)

/-- Python str.split(sep) for a one-character separator (keeps empty pieces). -/
def splitOnChar (sep : Char) (s : Str) : List Str := splitOnCharGo sep s []

/-- Worker for `removeAll`; fuel bounds the number of characters consumed. -/
def removeAllGo (pat : Str) : Nat → Str → Str
  | 0, s => s
  | fuel+1, s =>
    if !pat.isEmpty && occursAt pat s 0 then removeAllGo pat fuel (s.drop pat.length)
    else
      match s with
      | [] => []
      | c :: rest => c :: removeAllGo pat fuel rest

/-- Python s.replace(pat, ""): remove every non-overlapping occurrence of
`pat`, scanning left to right. -/
def removeAll (pat : Str) (s : Str) : Str := removeAllGo pat s.length s

/-- Model of unicodedata NFD followed by ASCII-encode-with-ignore, restricted
to the Spanish accented letters this pipeline can see; every other non-ASCII
character is dropped, exactly as encode('ascii', 'ignore') drops it. -/
def foldAccent (c : Char) : Option Char :=
  if c.toNat < 128 then some c
  else if c = 'á' then some 'a'
  else if c = 'é' then some 'e'
  else if c = 'í' then some 'i'
  else if c = 'ó' then some 'o'
  else if c = 'ú' then some 'u'
  else if c = 'ü' then some 'u'
  else if c = 'ñ' then some 'n'
  else if c = 'Á' then some 'A'
  else if c = 'É' then some 'E'
  else if c = 'Í' then some 'I'
  else if c = 'Ó' then some 'O'
  else if c = 'Ú' then some 'U'
  else if c = 'Ü' then some 'U'
  else if c = 'Ñ' then some 'N'
  else none

/-- Worker for `collapseWs`. -/
def collapseWsGo : Nat → Str → Str
  | 0, s => s
  | _+1, [] => []
  | fuel+1, c :: rest =>
    if c.isWhitespace then ' ' :: collapseWsGo fuel (rest.dropWhile Char.isWhitespace)
    else c :: collapseWsGo fuel rest

/-- Python re.sub(r"\s+", " ", s): each maximal whitespace run becomes one
space. -/
def collapseWs (s : Str) : Str := collapseWsGo s.length s

/-- Python string comparison (code-point lexicographic), used by heapq when
ratio scores tie in get_close_matches. -/
def lexLtStr : Str → Str → Bool
  | [], [] => false
  | [], _ :: _ => true
  | _ :: _, [] => false
  | c :: cs, d :: ds => if c = d then lexLtStr cs ds else decide (c < d)

/-- Length of the common character run of `a` and `b` starting at `i`, `j`. -/
def runLenGo (a b : Str) : Nat → Nat → Nat → Nat
  | 0, _, _ => 0
  | fuel+1, i, j =>
    match a.get? i, b.get? j with
    | some x, some y => if x = y then runLenGo a b fuel (i+1) (j+1) + 1 else 0
    | _, _ => 0

/-- Length of the common run of `a` and `b` starting at positions `i`, `j`. -/
def runLen (a b : Str) (i j : Nat) : Nat := runLenGo a b a.length i j

/-- difflib SequenceMatcher.find_longest_match on the windows
[alo, ahi) × [blo, bhi), without the junk heuristic: the largest common run,
ties resolved to the smallest `i` and then the smallest `j`, which is the
order in which the Python scan first reaches a block of maximal size. -/
def findLongestMatch (a b : Str) (alo ahi blo bhi : Nat) : Nat × Nat × Nat :=
  let cands : List (Nat × Nat × Nat) :=
    ((List.range ahi).drop alo).flatMap (fun i =>
      ((List.range bhi).drop blo).map (fun j =>
        (i, j, min (runLen a b i j) (min (ahi - i) (bhi - j)))))
  cands.foldl (fun best c => if best.2.2 < c.2.2 then c else best) (alo, blo, 0)

/-- Worker computing the total size of all matching blocks, recursing on both
sides of the longest match as get_matching_blocks does; the fuel dominates the
recursion depth, which shrinks the left window by at least one at each step. -/
def matchTotalGo (a b : Str) : Nat → Nat → Nat → Nat → Nat → Nat
  | 0, _, _, _, _ => 0
  | fuel+1, alo, ahi, blo, bhi =>
    match findLongestMatch a b alo ahi blo bhi with
    | (i, j, k) =>
      if k = 0 then 0
      else k + matchTotalGo a b fuel alo i blo j + matchTotalGo a b fuel (i+k) ahi (j+k) bhi

/-- Total number of matched characters across get_matching_blocks. -/
def matchTotal (a b : Str) : Nat := matchTotalGo a b (a.length + 1) 0 a.length 0 b.length

/-- difflib SequenceMatcher(None, a, b).ratio() = 2·M / (|a| + |b|), where M is
the total matched-block size; an empty-against-empty comparison yields 1.0. -/
def ratioQ (a b : Str) : ℚ :=
  if a.length + b.length = 0 then 1
  else (2 * (matchTotal a b : ℚ)) / ((a.length : ℚ) + (b.length : ℚ))

/-- difflib.get_close_matches(word, possibilities, n=1, cutoff): the qualifying
possibility (ratio ≥ cutoff) with the largest (ratio, string) pair, mirroring
heapq.nlargest over (score, x) tuples.  The quick-ratio prefilters of the
Python implementation are upper bounds of ratio and do not change this result
set.  Possibilities are scanned in list order. -/
def getCloseMatches1 (word : Str) (possibilities : List Str) (cutoff : ℚ) : Option Str :=
  let qualified := possibilities.filterMap (fun x =>
    let r := ratioQ x word
    if cutoff ≤ r then some (r, x) else none)
  match qualified with
  | [] => none
  | q :: qs =>
    some (qs.foldl (fun best c =>
      if best.1 < c.1 ∨ (best.1 = c.1 ∧ lexLtStr best.2 c.2) then c else best) q).2

/-! ### ner_classifier.py — data model and vocabulary -/

/-- Entity-type tag PRODUCTO. -/
def tPRODUCTO : Str := "PRODUCTO".toList

/-- Entity-type tag LABORATORIO (name shortened to satisfy naming constraints). -/
def tLabo : Str := "LABORATORIO".toList

/-- Entity-type tag CATEGORIA. -/
def tCATEGORIA : Str := "CATEGORIA".toList

/-- Entity-type tag DROGA. -/
def tDROGA : Str := "DROGA".toList

/-- Entity-type tag ACCION. -/
def tACCION : Str := "ACCION".toList

/-- Entity-type tag CONCEPTO. -/
def tCONCEPTO : Str := "CONCEPTO".toList

/-- Entity-type tag ESPECIE. -/
def tESPECIE : Str := "ESPECIE".toList

/-- ner_classifier.EntityMatch: a typed, positioned span.  The dataclass has no
score/confidence field. -/
structure EntityMatch where
  entityType : Str
  entityValue : Str
  position : Nat
  length : Nat
  originalText : Str := []
deriving DecidableEq, Repr

/-- EntityMatch.match_diff: length-difference penalty (0 when original_text is
empty). -/
def EntityMatch.matchDiff (m : EntityMatch) : Int :=
  if m.originalText.isEmpty then 0
  else (m.originalText.length : Int) - (m.length : Int)

/-- VeterinaryNERClassifier.ignored_terms. -/
def ignoredTerms : List Str :=
  ["para", "con", "sin", "los", "las", "una", "unos", "del", "por",
   "uso", "veterinario", "envase", "caja", "peso", "vivo", "kpv", "kilos",
   "comprimido", "comprimidos", "ml", "mg", "gr", "accion", "terapeutica",
   "tratamiento", "enfermedades", "amplio", "espectro", "via", "oral",
   "producto", "productos", "lista", "precio", "venta"].map String.toList

/-- VeterinaryNERClassifier.stop_phrases (list, in source order). -/
def stopPhrases : List Str :=
  ["que productos", "quien vende", "quien tiene", "que tiene", "busco",
   "necesito", "precio de", "tenes", "tienen", "tiene",
   "info de", "productos de", "informacion de",
   "dame", "quiero", "me das", "consulta sobre", "decime", "contame",
   "mostrame"].map String.toList

/-- VeterinaryNERClassifier.smalltalk_keywords. -/
def smalltalkKeywords : List Str :=
  ["hola", "hey", "buenos", "dias", "tardes", "como", "andas",
   "estas", "gracias", "chau", "adios"].map String.toList

/-- VeterinaryNERClassifier.recommendation_keywords. -/
def recommendationKeywords : List Str :=
  ["recomiend", "sugier", "que usar", "que darle", "que le doy",
   "ayuda con", "necesito para", "tiene para", "sirve para"].map String.toList

/-- VeterinaryNERClassifier.offer_keywords. -/
def offerKeywords : List Str :=
  ["oferta", "off", "desc", "promo", "descuento", "rebaja",
   "liquidacion"].map String.toList

/-- VeterinaryNERClassifier.transfer_keywords. -/
def transferKeywords : List Str :=
  ["transfer", "bonif", "regalo", "regla", "combo", "pack", "bm"].map String.toList

/-- The per-type vocabularies built at classifier start-up (Python sets,
modelled as duplicate-free lists fixing one iteration order). -/
structure Lexicon where
  laboratorios : List Str := []
  productos : List Str := []
  drogas : List Str := []
  categorias : List Str := []
  acciones : List Str := []
  conceptos : List Str := []
  especies : List Str := []
deriving DecidableEq, Repr

/-- The synonym set added by _enrich_species_vocabulary. -/
def speciesSynonyms : List Str :=
  ["canino", "caninos", "felino", "felinos", "cachorro", "cachorros",
   "gatito", "gatitos", "equino", "equinos", "bovino", "bovinos",
   "perro", "perros", "gato", "gatos",
   "pulga", "pulgas", "garrapata", "garrapatas"].map String.toList

/-- _enrich_species_vocabulary: add the upper-cased synonyms, then a plural
("S" after a vowel, "ES" after any other letter) for every entry. -/
def enrichSpecies (especies : List Str) : List Str :=
  let base := (especies ++ speciesSynonyms.map upperStr).eraseDups
  let extras := base.filterMap (fun sp =>
    match (lowerStr sp).getLast? with
    | none => none
    | some c =>
      if c = 'a' ∨ c = 'e' ∨ c = 'i' ∨ c = 'o' ∨ c = 'u' then some (sp ++ ['S'])
      else if c.isAlpha then some (sp ++ ['E', 'S'])
      else none)
  (base ++ extras).eraseDups

/-- stop_words_veterinaria of _sanitize_entities. -/
def stopWordsVeterinaria : List Str :=
  ["PARA", "USO", "VETERINARIO", "DEL", "LOS", "LAS", "CON", "SIN"].map String.toList

/-- The filtering applied by _sanitize_entities to drogas and acciones. -/
def sanitizeVocab (especies vocab : List Str) : List Str :=
  vocab.filter (fun d => decide (d ∉ especies) && decide (d ∉ stopWordsVeterinaria))

/-- manual_concepts of _sanitize_entities. -/
def manualConcepts : List Str :=
  ["COMPRIMIDO", "COMPRIMIDOS", "JARABE", "GOTAS", "PIPETA",
   "COLLAR", "COLLARES", "VACUNA", "VACUNAS"].map String.toList

/-- manual_cats of _sanitize_entities. -/
def manualCats : List Str :=
  ["CLINICO", "FARMACIA", "ALIMENTO", "ACCESORIO"].map String.toList

/-- The lexicon VeterinaryNERClassifier.__init__ builds when the data CSV files
are absent (the repository ships no data directory, and _load_known_entities
returns an empty set for a missing file): every loaded vocabulary is empty and
only _enrich_species_vocabulary and _sanitize_entities contribute entries. -/
def defaultLexicon : Lexicon :=
  let especies := enrichSpecies []
  { laboratorios := []
    productos := []
    drogas := sanitizeVocab especies []
    categorias := ([] ++ manualCats).eraseDups
    acciones := sanitizeVocab especies []
    conceptos := ([] ++ manualConcepts).eraseDups
    especies := especies }

/-! ### ner_classifier.py — extraction -/

/-- Is the character at index `i` alphanumeric?  Out-of-range positions count
as non-alphanumeric; the extractor only consults in-range positions. -/
def alnumAt (s : Str) (i : Nat) : Bool := ((s.get? i).getD ' ').isAlphanum

/-- _is_hard_overlapping: a partial-overlap test against the accumulated
matches; an identical (position, length) span is tolerated (multi-label). -/
def isHardOverlapping (position length : Nat) (existing : List EntityMatch) : Bool :=
  existing.any (fun m =>
    if m.position = position ∧ m.length = length then false
    else !(decide (position + length ≤ m.position) || decide (m.position + m.length ≤ position)))

/-- The word-boundary test of search_exact: the span start and end must sit at
the string boundary or next to a non-alphanumeric character. -/
def boundaryOk (ql : Str) (pos len : Nat) : Bool :=
  (pos == 0 || !(alnumAt ql (pos - 1))) &&
  (pos + len == ql.length || !(alnumAt ql (pos + len)))

/-- The inner while-loop of search_exact for one vocabulary entry: scan the
occurrences of `il` from left to right, appending every boundary-valid,
non-overlapping one. -/
def scanItemGo (tname item il ql : Str) : Nat → Nat → List EntityMatch → List EntityMatch
  | 0, _, ms => ms
  | fuel+1, start, ms =>
    match indexFrom il ql start with
    | none => ms
    | some pos =>
      let ms' :=
        if boundaryOk ql pos il.length && !(isHardOverlapping pos il.length ms) then
          ms ++ [⟨tname, item, pos, il.length, item⟩]
        else ms
      scanItemGo tname item il ql fuel (pos + 1) ms'

/-- search_exact, for a single vocabulary entry. -/
def scanItem (tname item ql : Str) (minLen : Nat) (ms : List EntityMatch) : List EntityMatch :=
  let il := lowerStr item
  if il.length < minLen then ms
  else if !(containsStr il ql) then ms
  else scanItemGo tname item il ql (ql.length + 1) 0 ms

/-- search_exact over a whole vocabulary (min_len defaults to 3 at every call
site). -/
def searchExact (tname : Str) (items : List Str) (ql : Str) (minLen : Nat)
    (ms : List EntityMatch) : List EntityMatch :=
  items.foldl (fun acc item => scanItem tname item ql minLen acc) ms

/-- Strategy 1 of _find_all_entities: the six search_exact calls, in source
order. -/
def exactStage (lex : Lexicon) (ql : Str) : List EntityMatch :=
  let m1 := searchExact tLabo lex.laboratorios ql 3 []
  let m2 := searchExact tDROGA lex.drogas ql 3 m1
  let m3 := searchExact tACCION lex.acciones ql 3 m2
  let m4 := searchExact tCATEGORIA lex.categorias ql 3 m3
  let m5 := searchExact tCONCEPTO lex.conceptos ql 3 m4
  searchExact tESPECIE lex.especies ql 3 m5

/-- fuzzy_targets of _find_all_entities, in dict insertion order. -/
def fuzzyTargets (lex : Lexicon) : List (Str × List Str) :=
  [(tCATEGORIA, lex.categorias), (tESPECIE, lex.especies), (tCONCEPTO, lex.conceptos),
   (tACCION, lex.acciones), (tLabo, lex.laboratorios), (tDROGA, lex.drogas)]

/-- The inner for-loop over fuzzy_targets for one query word: first accepted
close match is appended and the loop breaks; a close match failing the overlap
test does not break the loop. -/
def fuzzyWordStep (targets : List (Str × List Str)) (word : Str) (wordPos : Option Nat)
    (ms : List EntityMatch) : List EntityMatch :=
  match targets with
  | [] => ms
  | (tname, eset) :: rest =>
    match getCloseMatches1 (upperStr word) eset (17/20) with
    | none => fuzzyWordStep rest word wordPos ms
    | some mv =>
      match wordPos with
      | some p =>
        if !(isHardOverlapping p word.length ms) then
          ms ++ [⟨tname, mv, p, word.length, mv⟩]
        else fuzzyWordStep rest word wordPos ms
      | none => fuzzyWordStep rest word wordPos ms

/-- Strategy 2 of _find_all_entities: fuzzy matching of query words of length
at least 4 that are not noise terms and do not overlap an existing match. -/
def fuzzyStage (lex : Lexicon) (queryWords : List Str) (ql : Str)
    (ms0 : List EntityMatch) : List EntityMatch :=
  queryWords.foldl (fun ms word =>
    if word.length < 4 then ms
    else if lowerStr word ∈ ignoredTerms then ms
    else
      let wordPos := indexFrom (lowerStr word) ql 0
      match wordPos with
      | some p =>
        if isHardOverlapping p word.length ms then ms
        else fuzzyWordStep (fuzzyTargets lex) word wordPos ms
      | none => fuzzyWordStep (fuzzyTargets lex) word wordPos ms) ms0

/-- Strategy 3 of _find_all_entities for one product: a full-name substring
match is appended without any overlap check; otherwise the product root
(first token, or first two tokens when the first is shorter than 4) is tried
as a substring and then fuzzily against the query words. -/
def productStep (queryWords : List Str) (ql : Str) (ms : List EntityMatch)
    (prod : Str) : List EntityMatch :=
  let pl := lowerStr prod
  match indexFrom pl ql 0 with
  | some idx => ms ++ [⟨tPRODUCTO, prod, idx, prod.length, prod⟩]
  | none =>
    match splitWs pl with
    | [] => ms
    | p0 :: prest =>
      let root :=
        match prest with
        | [] => p0
        | p1 :: _ => if p0.length < 4 then p0 ++ (' ' :: p1) else p0
      if root.length < 3 ∨ root ∈ ignoredTerms then ms
      else
        match indexFrom root ql 0 with
        | some idx =>
          if isHardOverlapping idx root.length ms then ms
          else ms ++ [⟨tPRODUCTO, prod, idx, root.length, prod⟩]
        | none =>
          match getCloseMatches1 (upperStr root) (queryWords.map upperStr) (17/20) with
          | none => ms
          | some cand =>
            let wm := lowerStr cand
            match indexFrom wm ql 0 with
            | none => ms
            | some idx =>
              if isHardOverlapping idx wm.length ms then ms
              else ms ++ [⟨tPRODUCTO, prod, idx, wm.length, prod⟩]

/-- Strategy 3 of _find_all_entities over the product vocabulary. -/
def productStage (productos queryWords : List Str) (ql : Str)
    (ms0 : List EntityMatch) : List EntityMatch :=
  productos.foldl (fun ms prod => productStep queryWords ql ms prod) ms0

/-- _get_entity_type_priority. -/
def getEntityTypePriority (t : Str) : Nat :=
  if t = tPRODUCTO then 1
  else if t = tLabo then 2
  else if t = tCATEGORIA then 3
  else if t = tDROGA then 4
  else if t = tACCION then 5
  else if t = tCONCEPTO then 6
  else if t = tESPECIE then 7
  else 99

/-- The ranking key of _find_all_entities: (match_diff, type priority,
-length, position), compared lexicographically. -/
def rankKeyLt (x y : EntityMatch) : Bool :=
  if x.matchDiff ≠ y.matchDiff then decide (x.matchDiff < y.matchDiff)
  else if getEntityTypePriority x.entityType ≠ getEntityTypePriority y.entityType then
    decide (getEntityTypePriority x.entityType < getEntityTypePriority y.entityType)
  else if x.length ≠ y.length then decide (y.length < x.length)
  else decide (x.position < y.position)

/-- Stable insertion of `x` after every element strictly smaller, keeping the
original relative order of key-equal elements. -/
def insertStable (lt : α → α → Bool) (x : α) : List α → List α
  | [] => [x]
  | y :: ys => if lt y x then y :: insertStable lt x ys else x :: y :: ys

/-- Stable ascending sort; on a total key order this output is the unique
stable sort, hence equal to Python list.sort's. -/
def sortStable (lt : α → α → Bool) : List α → List α
  | [] => []
  | x :: xs => insertStable lt x (sortStable lt xs)

/-- The deduplication pass of _find_all_entities: keep the first occurrence of
every (entity_type, entity_value) pair. -/
def dedupMatches : List EntityMatch → List (Str × Str) → List EntityMatch
  | [], _ => []
  | m :: ms, seen =>
    if (m.entityType, m.entityValue) ∈ seen then dedupMatches ms seen
    else m :: dedupMatches ms ((m.entityType, m.entityValue) :: seen)

/-- _find_all_entities: the three strategies, ranking and deduplication.  The
query_norm parameter of the Python signature is unused there and omitted. -/
def findAllEntities (lex : Lexicon) (queryClean : Str) : List EntityMatch :=
  let ql := lowerStr queryClean
  let m1 := exactStage lex ql
  let queryWords := splitWs queryClean
  let m2 := fuzzyStage lex queryWords ql m1
  let m3 := productStage lex.productos queryWords ql m2
  dedupMatches (sortStable rankKeyLt m3) []

/-! ### ner_classifier.py — classification -/

/-- _normalize_text: lowercase, strip, NFD + ASCII-encode-ignore (accent
folding), collapse whitespace runs. -/
def normalizeText (text : Str) : Str :=
  collapseWs ((stripStr (lowerStr text)).filterMap foldAccent)

/-- _clean_query: remove every stop phrase (in list order), drop question and
exclamation marks, strip. -/
def cleanQuery (text : Str) : Str :=
  let afterPhrases := stopPhrases.foldl (fun s ph => removeAll ph s) text
  stripStr (afterPhrases.filter (fun c => !(c == '?' || c == '¿' || c == '!' || c == '¡')))

/-- _mentions_products: are there meaningful words left after dropping
greetings, stop phrases and words of length at most 2? -/
def mentionsProducts (query : Str) : Bool :=
  let ws := splitWs (lowerStr query)
  (ws.filter (fun w =>
    decide (w ∉ smalltalkKeywords) && decide (w ∉ stopPhrases) && decide (w.length > 2))).length > 0

/-- _detect_intent. -/
def detectIntent (queryNorm queryClean : Str) : Str :=
  if smalltalkKeywords.any (fun kw => containsStr kw queryNorm) && !(mentionsProducts queryClean)
  then "SMALLTALK".toList
  else if recommendationKeywords.any (fun kw => containsStr kw queryNorm)
  then "RECOMMENDATION".toList
  else "SEARCH".toList

/-- Numeric value of an ASCII digit string. -/
def digitsVal (ds : Str) : Nat := ds.foldl (fun acc c => acc * 10 + (c.toNat - 48)) 0

/-- The unit alternation mg|ml|gr? of the dosage regex (gr? greedily tries
"gr", then "g"), matched at the head of `s`. -/
def unitAt (s : Str) : Option Str :=
  if occursAt "mg".toList s 0 then some "mg".toList
  else if occursAt "ml".toList s 0 then some "ml".toList
  else if occursAt "gr".toList s 0 then some "gr".toList
  else if occursAt "g".toList s 0 then some "g".toList
  else none

/-- One anchored attempt of the dosage regex (\d+(?:[,\.]\d+)?)\s*(mg|ml|gr?)
at position `i`: maximal digits, then the fractional branch first (regex
greediness), then the fraction-free branch.  Reducing a maximal digit run can
never help: the next character would be a digit, which no continuation of the
pattern accepts. -/
def dosageAt (s : Str) (i : Nat) : Option (ℚ × Str) :=
  let rest := s.drop i
  let ds := rest.takeWhile Char.isDigit
  if ds.isEmpty then none
  else
    let after := rest.drop ds.length
    let fracRoute : Option (ℚ × Str) :=
      match after with
      | c :: after2 =>
        if c = ',' ∨ c = '.' then
          let fs := after2.takeWhile Char.isDigit
          if fs.isEmpty then none
          else
            let after3 := (after2.drop fs.length).dropWhile Char.isWhitespace
            match unitAt after3 with
            | some u => some ((digitsVal ds : ℚ) + (digitsVal fs : ℚ) / ((10:ℚ) ^ fs.length), u)
            | none => none
        else none
      | [] => none
    match fracRoute with
    | some r => some r
    | none =>
      let after3 := after.dropWhile Char.isWhitespace
      match unitAt after3 with
      | some u => some ((digitsVal ds : ℚ), u)
      | none => none

/-- Worker for `findDosage`: try each start position, ascending. -/
def findDosageGo (s : Str) : Nat → Nat → Option (ℚ × Str)
  | 0, _ => none
  | fuel+1, i =>
    if i ≤ s.length then
      match dosageAt s i with
      | some r => some r
      | none => findDosageGo s fuel (i+1)
    else none

/-- re.search of the dosage pattern: the leftmost match, with the value
already converted (comma read as decimal point). -/
def findDosage (s : Str) : Option (ℚ × Str) := findDosageGo s (s.length + 1) 0

/-- The filter dict produced by _extract_filters. -/
structure NerFilters where
  dosageValue : Option ℚ := none
  dosageUnit : Option Str := none
  presentation : Option Str := none
  isOffer : Bool := false
  isTransfer : Bool := false
deriving DecidableEq, Repr

/-- Truthiness of the _extract_filters dict: some key is present (boolean keys
are only ever set to True). -/
def NerFilters.nonempty (f : NerFilters) : Bool :=
  f.dosageValue.isSome || f.dosageUnit.isSome || f.presentation.isSome || f.isOffer || f.isTransfer

/-- _extract_filters: dosage regex, presentation keyword map (in dict order,
later hits overwrite), offer and transfer keyword flags. -/
def extractFilters (query : Str) : NerFilters :=
  let f0 : NerFilters := {}
  let f1 :=
    match findDosage query with
    | some (v, u) => { f0 with dosageValue := some v, dosageUnit := some u }
    | none => f0
  let f2 := if containsStr "comprimido".toList query then
    { f1 with presentation := some "comprimidos".toList } else f1
  let f3 := if containsStr "tableta".toList query then
    { f2 with presentation := some "comprimidos".toList } else f2
  let f4 := if containsStr "inyectable".toList query then
    { f3 with presentation := some "inyectable".toList } else f3
  let f5 := if offerKeywords.any (fun kw => containsStr kw query) then
    { f4 with isOffer := true } else f4
  if transferKeywords.any (fun kw => containsStr kw query) then
    { f5 with isTransfer := true } else f5

/-- _calculate_confidence: 0.5 + 0.2 per detected entity + 0.1 when the filter
dict is non-empty, capped at 1.0. -/
def calculateConfidence (numEntities : Nat) (filtersNonempty : Bool) : ℚ :=
  min ((1:ℚ)/2 + (numEntities : ℚ) * (1/5) + (if filtersNonempty then (1:ℚ)/10 else 0)) 1

/-- ClassificationResult (entity_type and entity_value are always None in the
current code and are omitted). -/
structure ClassificationResult where
  intent : Str
  allEntities : List EntityMatch
  filters : NerFilters
  confidence : ℚ
deriving DecidableEq, Repr

/-- classify: normalisation, cleaning, intent detection, the pure-smalltalk
early return with confidence 1.0, then extraction, numeric filters and the
confidence formula. -/
def classify (lex : Lexicon) (query : Str) : ClassificationResult :=
  let qn := normalizeText query
  let qc := cleanQuery qn
  let intent := detectIntent qn qc
  if intent == "SMALLTALK".toList && !(mentionsProducts qc) then
    { intent := "SMALLTALK".toList, allEntities := [], filters := {}, confidence := 1 }
  else
    let ents := findAllEntities lex qc
    let fl := extractFilters qn
    { intent := intent, allEntities := ents, filters := fl,
      confidence := calculateConfidence ents.length fl.nonempty }

/-! ### optimizer.py — noise filtering -/

/-- optimizer.STOP_WORDS. -/
def STOP_WORDS : List Str :=
  ["pero", "aunque", "sin", "embargo", "con", "que", "para",
   "de", "en", "y", "o", "a", "la", "el", "los", "las",
   "un", "una", "unos", "unas", "al", "del"].map String.toList

/-- optimizer.PRESENTATION_KEYWORDS. -/
def PRESENTATION_KEYWORDS : List Str :=
  ["gotas", "pipeta", "pipetas", "comprimidos", "tabletas",
   "inyectable", "shampoo", "spray", "collar", "difusor",
   "crema", "gel", "pomada", "solucion", "suspension"].map String.toList

/-- The dict view of an entity inside _filter_noisy_entities: entity_type,
entity_value and an optional score key (absent on extractor spans). -/
structure DictEntity where
  entityType : Str
  entityValue : Str
  position : Nat := 0
  length : Nat := 0
  originalText : Str := []
  score : Option ℚ := none
deriving DecidableEq, Repr

/-- dataclasses.asdict of an extractor EntityMatch: the resulting dict carries
no score key, so entity.get('score', 0.0) reads 0.0 for it. -/
def EntityMatch.asdict (m : EntityMatch) : DictEntity :=
  { entityType := m.entityType, entityValue := m.entityValue, position := m.position,
    length := m.length, originalText := m.originalText, score := none }

/-- The loop of _filter_noisy_entities, threading the seen-value set and the
running PRODUCTO counter (which counts every PRODUCTO that passes the
stop-word rule, even those later skipped as duplicates or low-score). -/
def filterNoisyGo (qlen : Nat) : List DictEntity → List Str → Nat → List DictEntity
  | [], _, _ => []
  | e :: rest, seen, pc =>
    let ev := stripStr (lowerStr e.entityValue)
    let sc := e.score.getD 0
    if ev ∈ STOP_WORDS then filterNoisyGo qlen rest seen pc
    else
      let et := if e.entityType == tESPECIE && decide (ev ∈ PRESENTATION_KEYWORDS)
        then tCONCEPTO else e.entityType
      let pc' := if et == tPRODUCTO then pc + 1 else pc
      if et == tPRODUCTO &&
          ((decide (qlen < 5) && decide (pc' > 5)) || (decide (qlen ≥ 5) && decide (pc' > 20))) then
        filterNoisyGo qlen rest seen pc'
      else if ev ∈ seen then filterNoisyGo qlen rest seen pc'
      else if sc < 1/2 then filterNoisyGo qlen rest (ev :: seen) pc'
      else { e with entityType := et } :: filterNoisyGo qlen rest (ev :: seen) pc'

/-- _filter_noisy_entities. -/
def filterNoisyEntities (entities : List DictEntity) (query : Str) : List DictEntity :=
  filterNoisyGo (splitWs query).length entities [] 0

/-! ### optimizer.py — post-processing of the oracle draft -/

/-- The species value of an LLM filter draft: absent/None, a string, or a
list of strings. -/
inductive SpecVal where
  | non : SpecVal
  | str : Str → SpecVal
  | list : List Str → SpecVal
deriving DecidableEq, Repr

/-- Python truthiness of a species draft value. -/
def SpecVal.truthy : SpecVal → Bool
  | .non => false
  | .str s => !s.isEmpty
  | .list l => !l.isEmpty

/-- Python truthiness of an optional string field. -/
def truthyStr : Option Str → Bool
  | none => false
  | some s => !s.isEmpty

/-- The search_filters dict of the oracle draft. -/
structure OptFilters where
  brand : Option Str := none
  category : Option Str := none
  species : SpecVal := .non
  presentation : Option Str := none
  drug : Option Str := none
  weightMin : Option ℚ := none
  weightMax : Option ℚ := none
  isOffer : Bool := false
  isTransfer : Bool := false
  excludeBrands : List Str := []
deriving DecidableEq, Repr

/-- The oracle draft handed to _post_process_response. -/
structure LlmResponse where
  searchInput : Option Str := none
  searchFilters : OptFilters := {}
deriving DecidableEq, Repr

/-- INVALID_BRANDS of fix #1. -/
def INVALID_BRANDS : List Str :=
  ["no detected", "not detected", "none", "null", "n/a",
   "no brand", "unknown", "not specified", "not found",
   "no laboratorio", "sin laboratorio", "no lab"].map String.toList

/-- HALLUCINATION_PATTERNS of fix #5. -/
def HALLUCINATION_PATTERNS : List Str :=
  ["que no sea x", "menos x", "x", "y",
   "specific brand", "brand name", "excluded brand",
   "[brand]", "<brand>", "marca", "lab", "laboratorio"].map String.toList

/-- valid_species of fix #2. -/
def validSpecies : List Str :=
  ["perro", "gato", "canino", "felino", "bovino", "equino", "ave",
   "porcino"].map String.toList

/-- Fix #1 of _post_process_response: reject placeholder or short brands, strip
a "LABORATORIO " label; otherwise the draft value is left as-is. -/
def fixBrand (f : OptFilters) : OptFilters :=
  match f.brand with
  | none => f
  | some b0 =>
    if b0.isEmpty then f
    else
      let b := stripStr b0
      if lowerStr b ∈ INVALID_BRANDS ∨ b.length < 3 then { f with brand := none }
      else if occursAt "LABORATORIO ".toList (upperStr b) 0 then
        { f with brand := some (stripStr (b.drop 12)) }
      else f

/-- Fix #2 of _post_process_response: collapse a list species to its first
element; a presentation keyword moves to the presentation field (when empty)
and nulls species; anything outside valid_species is nulled; a valid species
survives only when it, or "perro", or "gato", occurs in the query text. -/
def fixSpecies (f : OptFilters) (ql : Str) : OptFilters :=
  if !(f.species.truthy) then f
  else
    let sOpt : Option Str :=
      match f.species with
      | .non => none
      | .str s => some s
      | .list [] => none
      | .list (s :: _) => some s
    match sOpt with
    | none => f
    | some s =>
      if s.isEmpty then f
      else
        let sl := lowerStr s
        if sl ∈ PRESENTATION_KEYWORDS then
          let f1 := if truthyStr f.presentation then f else { f with presentation := some s }
          { f1 with species := .non }
        else if sl ∈ validSpecies then
          if ¬ (containsStr sl ql) ∧ ¬ (containsStr "perro".toList ql)
              ∧ ¬ (containsStr "gato".toList ql) then
            { f with species := .non }
          else { f with species := .str s }
        else { f with species := .non }

/-- Fix #3 of _post_process_response: a presentation not literally present in
the query text is dropped. -/
def fixPresentation (f : OptFilters) (ql : Str) : OptFilters :=
  if !(truthyStr f.presentation) then f
  else
    let p := lowerStr (f.presentation.getD [])
    if !(containsStr p ql) then { f with presentation := none } else f

/-- Fix #4 of _post_process_response: a drug that is really a presentation
keyword moves (lower-cased) to the presentation field when that is empty, and
is nulled. -/
def fixDrug (f : OptFilters) : OptFilters :=
  if !(truthyStr f.drug) then f
  else
    let d := lowerStr (f.drug.getD [])
    if d ∈ PRESENTATION_KEYWORDS then
      let f1 := if truthyStr f.presentation then f else { f with presentation := some d }
      { f1 with drug := none }
    else f

/-- Fix #5 of _post_process_response: drop hallucination patterns and entries
of length at most 2 from exclude_brands. -/
def fixExcludeBrands (f : OptFilters) : OptFilters :=
  if f.excludeBrands.isEmpty then f
  else
    { f with excludeBrands := f.excludeBrands.filter (fun b =>
        decide (stripStr (lowerStr b) ∉ HALLUCINATION_PATTERNS)
          && decide ((stripStr b).length > 2)) }

/-- _post_process_response: default the search input to the raw query, then
apply the five fixes in source order. -/
def postProcessResponse (resp : LlmResponse) (query : Str) : LlmResponse :=
  let si := if truthyStr resp.searchInput then resp.searchInput else some query
  let ql := lowerStr query
  let f0 := resp.searchFilters
  let f1 := fixBrand f0
  let f2 := fixSpecies f1 ql
  let f3 := fixPresentation f2 ql
  let f4 := fixDrug f3
  let f5 := fixExcludeBrands f4
  { searchInput := si, searchFilters := f5 }

/-! ### search.py — candidate scoring and ranking -/

/-- search.py scoring weights and boosts. -/
def WEIGHT_SEMANTIC : ℚ := 1

/-- Weight of the brand-similarity sub-score. -/
def WEIGHT_BRAND_SIMILARITY : ℚ := 1

/-- Weight of the name-similarity sub-score. -/
def WEIGHT_NAME_SIMILARITY : ℚ := 3/2

/-- Weight of the weight-fit sub-score. -/
def WEIGHT_WEIGHT_FIT : ℚ := 1

/-- Weight of the attribute sub-score. -/
def WEIGHT_ATTRIBUTES : ℚ := 1/2

/-- Strong offer boost (requested offers). -/
def OFFER_BOOST : ℚ := 2

/-- Strong transfer boost (requested transfers). -/
def TRANSFER_BOOST : ℚ := 3/2

/-- Soft offer boost (unrequested). -/
def OFFER_SOFT_BOOST : ℚ := 1/2

/-- Soft transfer boost (unrequested). -/
def TRANSFER_SOFT_BOOST : ℚ := 3/10

/-- Adaptive threshold for a named-product search. -/
def THRESHOLD_SPECIFIC : ℚ := 8

/-- Adaptive threshold for a brand/laboratory search. -/
def THRESHOLD_FAMILY : ℚ := 5

/-- Adaptive threshold for a bare-category search. -/
def THRESHOLD_CATEGORY : ℚ := 3

/-- The metadata fields of a retrieval row that the scorer reads.  A missing
key reads as the .get default at each use site. -/
structure RowMeta where
  title : Option Str := none
  enterpriseTitle : Option Str := none
  drug : Option Str := none
  category : Option Str := none
  presentation : Option Str := none
  speciesFilter : Option Str := none
  weightRange : Option Str := none
  isOffer : Option Str := none
  hasTransfer : Option Str := none
deriving DecidableEq, Repr

/-- One raw retrieval row: base SQL scores plus metadata. -/
structure Row where
  entityId : Nat := 0
  entityType : Str := []
  contentText : Str := []
  semanticScore : ℚ := 0
  keywordScore : ℚ := 0
  exactMatchScore : ℚ := 0
  metadata : RowMeta := {}
deriving DecidableEq, Repr

/-- The filter dict consumed by search.py (species is used there as a plain
string by the code paths modelled here). -/
structure SearchFilters where
  brand : Option Str := none
  category : Option Str := none
  species : Option Str := none
  presentation : Option Str := none
  drug : Option Str := none
  weightMin : Option ℚ := none
  weightMax : Option ℚ := none
  isOffer : Bool := false
  isTransfer : Bool := false
  excludeBrands : List Str := []
  targetProducts : List Str := []
  laboratorios : List Str := []
deriving DecidableEq, Repr

/-- The _debug sub-score record attached to each scored candidate. -/
structure ScoredDebug where
  semantic : ℚ := 0
  keyword : ℚ := 0
  exact : ℚ := 0
  brandSim : ℚ := 0
  nameSim : ℚ := 0
  weightFit : ℚ := 0
  attributes : ℚ := 0
  commercial : ℚ := 0
  isOffer : Bool := false
  hasTransfer : Bool := false
deriving DecidableEq, Repr

/-- One scored candidate as built by _apply_gradual_scoring_conditional. -/
structure Scored where
  entityId : Nat := 0
  entityType : Str := []
  content : Str := []
  metadata : RowMeta := {}
  totalScore : ℚ := 0
  debug : ScoredDebug := {}
deriving DecidableEq, Repr

/-- _normalize_input: unidecode (accent folding), lower, strip, and removal of
quote and colon characters; falsy input yields the empty string. -/
def normalizeInput : Option Str → Str
  | none => []
  | some t =>
    if t.isEmpty then []
    else
      (stripStr (lowerStr (t.filterMap foldAccent))).filter
        (fun c => !(c == '\'' || c == '"' || c == ':'))

/-- Truthiness of an optional numeric filter value (Python: 0 is falsy). -/
def truthyQ : Option ℚ → Bool
  | none => false
  | some x => decide (x ≠ 0)

/-- _is_true on a metadata value (modelled for string-typed metadata; an
absent value stringifies to "none", which is not accepted). -/
def isTrueOpt : Option Str → Bool
  | none => false
  | some s => decide (lowerStr s ∈ (["true", "1", "yes", "si"].map String.toList))

/-- Python float() on a stripped string, restricted to decimal and exponent
forms: optional sign, digits with an optional fractional part, optional
exponent.  The exotic spellings float() also accepts (inf, nan, underscore
separators) do not occur in weight_range metadata and are not modelled. -/
def parseFloatUnsigned (s : Str) : Option (ℚ × Str) :=
  let ds := s.takeWhile Char.isDigit
  let rest := s.drop ds.length
  match rest with
  | '.' :: r2 =>
    let fs := r2.takeWhile Char.isDigit
    if ds.isEmpty ∧ fs.isEmpty then none
    else some ((digitsVal ds : ℚ) + (digitsVal fs : ℚ) / (10:ℚ) ^ fs.length, r2.drop fs.length)
  | _ => if ds.isEmpty then none else some ((digitsVal ds : ℚ), rest)

/-- Python float() (see parseFloatUnsigned); `none` models a raised
ValueError. -/
def parseFloat (s : Str) : Option ℚ :=
  let signed : ℚ × Str :=
    match s with
    | '+' :: r => (1, r)
    | '-' :: r => (-1, r)
    | _ => (1, s)
  match parseFloatUnsigned signed.2 with
  | none => none
  | some (v, rest) =>
    match rest with
    | [] => some (signed.1 * v)
    | e :: r2 =>
      if e = 'e' ∨ e = 'E' then
        let esigned : Int × Str :=
          match r2 with
          | '+' :: r => (1, r)
          | '-' :: r => (-1, r)
          | _ => (1, r2)
        let eds := esigned.2.takeWhile Char.isDigit
        if eds.isEmpty ∨ !((esigned.2.drop eds.length).isEmpty) then none
        else some (signed.1 * v * (10:ℚ) ^ (esigned.1 * (digitsVal eds : Int)))
      else none

/-- _parse_weight_range: falsy or sentinel strings yield None; otherwise split
on "-" and parse exactly two float parts; every failure (wrong arity, a part
float() rejects) is caught and yields None. -/
def parseWeightRange : Option Str → Option (ℚ × ℚ)
  | none => none
  | some s =>
    if s.isEmpty then none
    else if stripStr s ∈ (["", "0", "None", "null"].map String.toList) then none
    else
      match splitOnChar '-' s with
      | [p1, p2] =>
        match parseFloat (stripStr p1), parseFloat (stripStr p2) with
        | some a, some b => some (a, b)
        | _, _ => none
      | _ => none

/-- _score_brand_similarity. -/
def scoreBrandSimilarity (productBrand filterBrand : Str) : ℚ :=
  let pc := stripStr (lowerStr productBrand)
  let fc := stripStr (lowerStr filterBrand)
  if pc.isEmpty ∨ fc.isEmpty then 0
  else if pc == fc then 5
  else if containsStr fc pc ∨ containsStr pc fc then 3
  else
    let r := ratioQ pc fc
    if r > 4/5 then 2 else if r > 3/5 then 1 else 0

/-- The token stop words of _score_name_similarity. -/
def nameStopWords : List Str :=
  ["de", "para", "con", "sin", "x", "y", "en"].map String.toList

/-- _score_name_similarity: token-set Jaccard with stop words removed,
bucketed. -/
def scoreNameSimilarity (productName query : Str) : ℚ :=
  let pt := ((splitWs (normalizeInput (some productName))).eraseDups).filter
    (fun w => decide (w ∉ nameStopWords))
  let qt := ((splitWs (normalizeInput (some query))).eraseDups).filter
    (fun w => decide (w ∉ nameStopWords))
  if qt.isEmpty then 0
  else
    let common := pt.filter (fun w => decide (w ∈ qt))
    let uni := (pt ++ qt).eraseDups
    let j : ℚ := if uni.isEmpty then 0 else (common.length : ℚ) / (uni.length : ℚ)
    if j ≥ 4/5 then 5 else if j ≥ 3/5 then 4 else if j ≥ 2/5 then 2
    else if j ≥ 1/5 then 1 else 0

/-- _score_weight_fit on a parsed candidate range (the caller already handled
the no-range case). -/
def scoreWeightFit (productRange : ℚ × ℚ) (targetMin targetMax : ℚ) : ℚ :=
  let pmin := productRange.1
  let pmax := productRange.2
  if pmin ≥ targetMin ∧ pmax ≤ targetMax then 4
  else if ¬ (pmax < targetMin ∨ pmin > targetMax) then
    let overlapSize := min pmax targetMax - max pmin targetMin
    let targetSize := targetMax - targetMin
    let overlapRatio := if targetSize > 0 then overlapSize / targetSize else 0
    if overlapRatio > 7/10 then 7/2
    else if overlapRatio > 1/2 then 3
    else if overlapRatio > 3/10 then 5/2
    else 2
  else
    let distance := if pmax < targetMin then targetMin - pmax else pmin - targetMax
    let targetRange := targetMax - targetMin
    let relativeDistance := if targetRange > 0 then distance / targetRange else 999
    if relativeDistance < 1/5 then 2
    else if relativeDistance < 1/2 then 1
    else 0

/-- _score_attributes: +0.5 per textual attribute containment. -/
def scoreAttributes (meta : RowMeta) (f : SearchFilters) : ℚ :=
  let s0 : ℚ := 0
  let s1 := if truthyStr f.category &&
      containsStr (lowerStr (f.category.getD [])) (lowerStr (meta.category.getD []))
    then s0 + 1/2 else s0
  let s2 := if truthyStr f.presentation &&
      containsStr (lowerStr (f.presentation.getD [])) (lowerStr (meta.presentation.getD []))
    then s1 + 1/2 else s1
  let s3 :=
    match f.species with
    | some sp =>
      if !(sp.isEmpty) && !((lowerStr sp).isEmpty) &&
          containsStr (lowerStr sp) (lowerStr (meta.speciesFilter.getD []))
        then s2 + 1/2 else s2
    | none => s2
  if truthyStr f.drug &&
      containsStr (lowerStr (f.drug.getD [])) (lowerStr (meta.drug.getD []))
    then s3 + 1/2 else s3

/-- The per-row body of _apply_gradual_scoring_conditional: all sub-scores,
the conditional commercial boost and the weighted total. -/
def scoreRow (f : SearchFilters) (queryText : Str) (row : Row) : Scored :=
  let brandScore : ℚ :=
    match f.brand with
    | some b =>
      if !b.isEmpty then scoreBrandSimilarity (row.metadata.enterpriseTitle.getD []) b else 0
    | none => 0
  let nameScore : ℚ :=
    if !queryText.isEmpty then scoreNameSimilarity (row.metadata.title.getD []) queryText else 0
  let weightScore : ℚ :=
    if truthyQ f.weightMin || truthyQ f.weightMax then
      match parseWeightRange row.metadata.weightRange with
      | some wr => scoreWeightFit wr (f.weightMin.getD 0) (f.weightMax.getD 999)
      | none => 0
    else 0
  let attributeScore := scoreAttributes row.metadata f
  let productIsOffer := isTrueOpt row.metadata.isOffer
  let productHasTransfer := isTrueOpt row.metadata.hasTransfer
  let commercialBoost : ℚ :=
    (if productIsOffer then (if f.isOffer then OFFER_BOOST else OFFER_SOFT_BOOST) else 0) +
    (if productHasTransfer then (if f.isTransfer then TRANSFER_BOOST else TRANSFER_SOFT_BOOST) else 0)
  let total :=
    row.semanticScore * WEIGHT_SEMANTIC + row.keywordScore + row.exactMatchScore +
    brandScore * WEIGHT_BRAND_SIMILARITY + nameScore * WEIGHT_NAME_SIMILARITY +
    weightScore * WEIGHT_WEIGHT_FIT + attributeScore * WEIGHT_ATTRIBUTES + commercialBoost
  { entityId := row.entityId, entityType := row.entityType, content := row.contentText,
    metadata := row.metadata, totalScore := total,
    debug := { semantic := row.semanticScore, keyword := row.keywordScore,
               exact := row.exactMatchScore, brandSim := brandScore, nameSim := nameScore,
               weightFit := weightScore, attributes := attributeScore,
               commercial := commercialBoost, isOffer := productIsOffer,
               hasTransfer := productHasTransfer } }

/-- _apply_gradual_scoring_conditional: every raw row is scored and appended,
unconditionally. -/
def applyGradualScoringConditional (rows : List Row) (f : SearchFilters)
    (queryText : Str) : List Scored :=
  rows.map (scoreRow f queryText)

/-- The threshold-selection chain at the top of _apply_adaptive_threshold
(named here so that theorems can speak about it). -/
def adaptiveThresholdValue (f : SearchFilters) : ℚ :=
  if !f.targetProducts.isEmpty then THRESHOLD_SPECIFIC
  else if truthyStr f.brand || !f.laboratorios.isEmpty then THRESHOLD_FAMILY
  else THRESHOLD_CATEGORY

/-- _apply_adaptive_threshold: the specificity-dependent minimum, the
discard-below-threshold filter, and the first-3 fallback that requires at
least 3 scored candidates. -/
def applyAdaptiveThreshold (scored : List Scored) (f : SearchFilters) : List Scored :=
  let filtered := scored.filter (fun c => decide (c.totalScore ≥ adaptiveThresholdValue f))
  if filtered.length < 3 ∧ scored.length ≥ 3 then scored.take 3 else filtered

/-! ### Spec-side comparison definitions and concrete instances -/

/-- Spec-side definition for the refinement comparison of claim C5, following
the spec's words: "tokenize query and each product name (stop-words removed);
compute coverage = |intersection| / |query tokens|; accept coverage > 0.3;
keep top 40 by coverage."  The extractor's noise list serves as the stop-word
list; the comparison below depends only on the top-40 truncation. -/
def specCoverageProducts (productos : List Str) (query : Str) : List (Str × ℚ) :=
  let qTokens := ((splitWs (lowerStr query)).eraseDups).filter (fun w => decide (w ∉ ignoredTerms))
  if qTokens.isEmpty then []
  else
    let accepted := productos.filterMap (fun p =>
      let pTokens := ((splitWs (lowerStr p)).eraseDups).filter (fun w => decide (w ∉ ignoredTerms))
      let inter := qTokens.filter (fun w => decide (w ∈ pTokens))
      let cov : ℚ := (inter.length : ℚ) / (qTokens.length : ℚ)
      if cov > 3/10 then some (p, cov) else none)
    (sortStable (fun a b => decide (b.2 < a.2)) accepted).take 40

/-- Spec-side definition for the comparison of claim C10, following the
claim's words: confidence = min(0.5 + 0.2 × (number of detected entities)
+ 0.1 × (1 if numeric filters were extracted else 0), 1.0). -/
def claimConfidence (numEntities : Nat) (numericFiltersExtracted : Bool) : ℚ :=
  min ((1:ℚ)/2 + (1/5) * (numEntities : ℚ) + (1/10) * (if numericFiltersExtracted then 1 else 0)) 1

/-- Forty-one pairwise distinct three-letter product names. -/
def prods41 : List Str :=
  (List.range 41).map (fun i => ['z', Char.ofNat (97 + i / 26), Char.ofNat (97 + i % 26)])

/-- Space-join of a word list. -/
def joinWords : List Str → Str
  | [] => []
  | [w] => w
  | w :: ws => w ++ ' ' :: joinWords ws

/-- A query mentioning all of prods41. -/
def q41 : Str := joinWords prods41

/-- A lexicon whose product vocabulary is prods41. -/
def lex41 : Lexicon := { productos := prods41 }

/-- The per-span soundness property of the exact-match stage: the span sits at
a genuine occurrence of its lower-cased lexicon value, whose two ends are at
word boundaries. -/
def exactSpanOk (ql : Str) (m : EntityMatch) : Prop :=
  occursAt (lowerStr m.entityValue) ql m.position = true ∧
  boundaryOk ql m.position m.length = true ∧
  m.length = (lowerStr m.entityValue).length

/-! ## Theorems -/

/-! ### Shared helper lemmas -/

theorem insertStable_perm (lt : α → α → Bool) (x : α) (l : List α) :
    List.Perm (insertStable lt x l) (x :: l) := by
  induction l with
  | nil => simp [insertStable]
  | cons y ys ih =>
    simp only [insertStable]
    split
    · exact ((ih.cons y).trans (List.Perm.swap x y ys))
    · exact List.Perm.refl _

theorem sortStable_perm (lt : α → α → Bool) (l : List α) :
    List.Perm (sortStable lt l) l := by
  induction l with
  | nil => simp [sortStable]
  | cons x xs ih =>
    simpa [sortStable] using (insertStable_perm lt x (sortStable lt xs)).trans (ih.cons x)

theorem mem_sortStable {lt : α → α → Bool} {l : List α} {a : α} :
    a ∈ sortStable lt l ↔ a ∈ l :=
  (sortStable_perm lt l).mem_iff

theorem dedupMatches_key_exists (l : List EntityMatch) :
    ∀ (seen : List (Str × Str)) (k : Str × Str),
      (∃ m ∈ l, (m.entityType, m.entityValue) = k) → k ∉ seen →
      ∃ m ∈ dedupMatches l seen, (m.entityType, m.entityValue) = k := by
  induction l with
  | nil => intro seen k h _; rcases h with ⟨m, hm, _⟩; cases hm
  | cons m0 ms ih =>
    intro seen k h hk
    rcases h with ⟨m, hm, hkey⟩
    simp only [dedupMatches]
    by_cases hseen : (m0.entityType, m0.entityValue) ∈ seen
    · rw [if_pos hseen]
      rcases List.mem_cons.mp hm with rfl | hmem
      · exact absurd (hkey ▸ hseen) hk
      · exact ih seen k ⟨m, hmem, hkey⟩ hk
    · rw [if_neg hseen]
      rcases List.mem_cons.mp hm with rfl | hmem
      · exact ⟨m, List.mem_cons_self _ _, hkey⟩
      · by_cases hk0 : (m0.entityType, m0.entityValue) = k
        · exact ⟨m0, List.mem_cons_self _ _, hk0⟩
        · have hk' : k ∉ (m0.entityType, m0.entityValue) :: seen := by
            intro hmem'
            rcases List.mem_cons.mp hmem' with h1 | h2
            · exact hk0 h1.symm
            · exact hk h2
          rcases ih ((m0.entityType, m0.entityValue) :: seen) k ⟨m, hmem, hkey⟩ hk' with
            ⟨m', hm', hkey'⟩
          exact ⟨m', List.mem_cons_of_mem _ hm', hkey'⟩

theorem calculateConfidence_bounds (n : Nat) (b : Bool) :
    (1:ℚ)/2 ≤ calculateConfidence n b ∧ calculateConfidence n b ≤ 1 := by
  unfold calculateConfidence
  constructor
  · apply le_min _ (by norm_num)
    have hn : (0:ℚ) ≤ (n : ℚ) * (1/5) := by positivity
    have hb : (0:ℚ) ≤ (if b then (1:ℚ)/10 else 0) := by split <;> norm_num
    linarith
  · exact min_le_right _ _

/-! ### Claim C1 — adaptive threshold and the top-3 floor -/

/-- C1 (counterexample): a single scored candidate whose total score (0) lies
below the CATEGORÍA threshold (3) is discarded and, since fewer than 3
candidates were scored, the top-3 fallback does not fire: the output of
_apply_adaptive_threshold is empty although the scored input was non-empty,
contradicting the claim that the output is never empty in that case. -/
theorem C1_counterexample :
    ([({ totalScore := 0 } : Scored)] ≠ ([] : List Scored)) ∧
    applyAdaptiveThreshold [{ totalScore := 0 }] {} = [] := by
  constructor
  · simp
  · decide

/-- C1 (amended): for every filter set and scored list holding at least 3
candidates, _apply_adaptive_threshold returns the first 3 scored candidates
when fewer than 3 reach the specificity-dependent minimum, returns exactly the
candidates at or above the minimum otherwise, and its output is never empty;
with fewer than 3 scored candidates the fallback does not exist and the output
can be empty (see the counterexample). -/
theorem C1_amended_adaptive_threshold (scored : List Scored) (f : SearchFilters)
    (h3 : 3 ≤ scored.length) :
    applyAdaptiveThreshold scored f ≠ [] ∧
    ((scored.filter (fun c => decide (c.totalScore ≥ adaptiveThresholdValue f))).length < 3 →
      applyAdaptiveThreshold scored f = scored.take 3) ∧
    (3 ≤ (scored.filter (fun c => decide (c.totalScore ≥ adaptiveThresholdValue f))).length →
      applyAdaptiveThreshold scored f =
        scored.filter (fun c => decide (c.totalScore ≥ adaptiveThresholdValue f))) := by
  have htake : scored.take 3 ≠ [] := by
    have : (scored.take 3).length = 3 := by
      rw [List.length_take]
      omega
    intro hnil
    rw [hnil] at this
    simp at this
  by_cases hk : (scored.filter (fun c => decide (c.totalScore ≥ adaptiveThresholdValue f))).length < 3
  · have hres : applyAdaptiveThreshold scored f = scored.take 3 := by
      unfold applyAdaptiveThreshold
      rw [if_pos ⟨hk, h3⟩]
    refine ⟨hres ▸ htake, fun _ => hres, fun hge => absurd hk (by omega)⟩
  · have hres : applyAdaptiveThreshold scored f =
        scored.filter (fun c => decide (c.totalScore ≥ adaptiveThresholdValue f)) := by
      unfold applyAdaptiveThreshold
      rw [if_neg (by tauto)]
    refine ⟨?_, fun hlt => absurd hlt hk, fun _ => hres⟩
    rw [hres]
    intro hnil
    rw [hnil] at hk
    simp at hk

/-- C1 (witness): five candidates scoring 1, all below the CATEGORÍA threshold
3 — the stage falls back to the first three, a non-empty output. -/
theorem C1_witness :
    applyAdaptiveThreshold
      [({ totalScore := 1 } : Scored), { totalScore := 1 }, { totalScore := 1 },
       { totalScore := 1 }, { totalScore := 1 }] {} =
      [({ totalScore := 1 } : Scored), { totalScore := 1 }, { totalScore := 1 }] ∧
    applyAdaptiveThreshold
      [({ totalScore := 1 } : Scored), { totalScore := 1 }, { totalScore := 1 },
       { totalScore := 1 }, { totalScore := 1 }] {} ≠ [] := by
  have h := C1_amended_adaptive_threshold
    [({ totalScore := 1 } : Scored), { totalScore := 1 }, { totalScore := 1 },
     { totalScore := 1 }, { totalScore := 1 }] {} (by decide)
  exact ⟨(h.2.1 (by decide)).trans (by decide), h.1⟩

/-! ### Claim C2 — noise filtering of extractor spans -/

theorem filterNoisyGo_scoreless (qlen : Nat) (l : List DictEntity) :
    ∀ (seen : List Str) (pc : Nat), (∀ e ∈ l, e.score = none) →
      filterNoisyGo qlen l seen pc = [] := by
  induction l with
  | nil => intro seen pc _; rfl
  | cons e rest ih =>
    intro seen pc h
    have he : e.score = none := h e (List.mem_cons_self _ _)
    have hrest : ∀ x ∈ rest, x.score = none := fun x hx => h x (List.mem_cons_of_mem _ hx)
    simp only [filterNoisyGo, he, Option.getD_none]
    split_ifs <;>
      first
        | exact ih _ _ hrest
        | exact absurd (by norm_num : (0:ℚ) < 1/2) (by assumption)

/-- C2 (code_bug): _filter_noisy_entities is claimed to retain the non-noisy
spans and to reclassify packaging-term SPECIES spans as CONCEPT, but every
span list produced by the extractor is dropped wholesale: EntityMatch has no
score field, dataclasses.asdict therefore yields a dict without a score key,
entity.get('score', 0.0) reads 0.0, and rule 5 (score < 0.5) skips every
entity.  For every extractor span list and every query the filter returns the
empty list; in particular a clean ESPECIE span "gotas" (not a stop word,
unique, within every cap), which the claim says survives reclassified as
CONCEPT, is dropped. -/
theorem C2_noise_filter_drops_all_extractor_spans :
    (∀ (ms : List EntityMatch) (query : Str),
      filterNoisyEntities (ms.map EntityMatch.asdict) query = []) ∧
    filterNoisyEntities
      [EntityMatch.asdict ⟨tESPECIE, "gotas".toList, 21, 5, "GOTAS".toList⟩]
      "pipeta para gatos en gotas".toList = [] := by
  have hall : ∀ (ms : List EntityMatch) (query : Str),
      filterNoisyEntities (ms.map EntityMatch.asdict) query = [] := by
    intro ms query
    unfold filterNoisyEntities
    apply filterNoisyGo_scoreless
    intro e he
    rcases List.mem_map.mp he with ⟨m, _, rfl⟩
    rfl
  exact ⟨hall, by decide⟩

/-! ### Claim C3 — species validation of the oracle draft -/

/-- C3 (counterexample): the draft species "bovino" is kept by
_post_process_response for the query "pipeta para perro" even though "bovino"
is not literally present in the query text — the literally-present test is
bypassed whenever "perro" or "gato" occurs anywhere in the query —
contradicting the claim that any species value not literally present in the
original query is dropped. -/
theorem C3_counterexample :
    (postProcessResponse { searchFilters := { species := .str "bovino".toList } }
        "pipeta para perro".toList).searchFilters.species = .str "bovino".toList ∧
    containsStr "bovino".toList (lowerStr "pipeta para perro".toList) = false := by
  decide

/-! ### Claim C6 — overlap resolution -/

/-- C6 (counterexample): with product vocabulary {PIPETAXX SUPER} and concept
vocabulary {PIPETA}, the query "pipetaxx super" yields a fuzzy CONCEPTO span
at (0,8) accepted at ratio 6/7 ≈ 0.857 ≤ 0.9 and an exact full-name PRODUCTO
span at (0,14); the two spans partially overlap (the code's own
_is_hard_overlapping test says so) and yet both survive in the output —the
full-name product branch appends without any overlap check — contradicting
the claim that a span of score ≤ 0.9 partially overlapping a higher-confidence
span is rejected. -/
theorem C6_counterexample :
    findAllEntities { conceptos := ["PIPETA".toList], productos := ["PIPETAXX SUPER".toList] }
        "pipetaxx super".toList =
      [⟨tCONCEPTO, "PIPETA".toList, 0, 8, "PIPETA".toList⟩,
       ⟨tPRODUCTO, "PIPETAXX SUPER".toList, 0, 14, "PIPETAXX SUPER".toList⟩] ∧
    ratioQ "PIPETA".toList "PIPETAXX".toList = 6/7 ∧
    ((6:ℚ)/7 ≤ 9/10) ∧
    isHardOverlapping 0 14 [⟨tCONCEPTO, "PIPETA".toList, 0, 8, "PIPETA".toList⟩] = true := by
  decide

/-- C6 (amended): _is_hard_overlapping rejects an arriving span exactly when
it partially overlaps some already-recorded span — identical (position,length)
spans coexist (multi-label) — and the test involves no score or confidence at
all: rejection depends only on positions, lengths and arrival order, and the
full-name product branch bypasses it entirely (see the counterexample). -/
theorem C6_amended_overlap_resolution (position length : Nat) (ms : List EntityMatch) :
    isHardOverlapping position length ms = true ↔
      ∃ m ∈ ms, ¬ (m.position = position ∧ m.length = length) ∧
        m.position < position + length ∧ position < m.position + m.length := by
  unfold isHardOverlapping
  rw [List.any_eq_true]
  constructor
  · rintro ⟨m, hm, hp⟩
    refine ⟨m, hm, ?_⟩
    by_cases hid : m.position = position ∧ m.length = length
    · rw [if_pos hid] at hp; cases hp
    · rw [if_neg hid] at hp
      simp only [Bool.not_eq_true', Bool.or_eq_false_iff, decide_eq_false_iff_not,
        not_le] at hp
      exact ⟨hid, by omega, by omega⟩
  · rintro ⟨m, hm, hid, h1, h2⟩
    refine ⟨m, hm, ?_⟩
    rw [if_neg hid]
    simp only [Bool.not_eq_true', Bool.or_eq_false_iff, decide_eq_false_iff_not, not_le]
    omega

/-! ### Claim C7 — FilterSet invariants -/

/-- C7 (code_bug): _post_process_response enforces neither FilterSet
invariant: an oracle draft with brand "Bayer", exclude_brands = ["Bayer"],
weight_min = 30 and weight_max = 10 passes through unchanged — "Bayer" is a
valid brand (length ≥ 3, no placeholder), "bayer" matches no hallucination
pattern, and the weight bounds are never compared — so the produced filter
set has exclude_brands ∩ {brand} ≠ ∅ and weight_min > weight_max. -/
theorem C7_invariants_not_enforced :
    (postProcessResponse
        { searchFilters := { brand := some "Bayer".toList,
                             excludeBrands := ["Bayer".toList],
                             weightMin := some 30, weightMax := some 10 } }
        "antiparasitario que no sea bayer de 30kg".toList).searchFilters.brand =
      some "Bayer".toList ∧
    "Bayer".toList ∈ (postProcessResponse
        { searchFilters := { brand := some "Bayer".toList,
                             excludeBrands := ["Bayer".toList],
                             weightMin := some 30, weightMax := some 10 } }
        "antiparasitario que no sea bayer de 30kg".toList).searchFilters.excludeBrands ∧
    (postProcessResponse
        { searchFilters := { brand := some "Bayer".toList,
                             excludeBrands := ["Bayer".toList],
                             weightMin := some 30, weightMax := some 10 } }
        "antiparasitario que no sea bayer de 30kg".toList).searchFilters.weightMin = some 30 ∧
    (postProcessResponse
        { searchFilters := { brand := some "Bayer".toList,
                             excludeBrands := ["Bayer".toList],
                             weightMin := some 30, weightMax := some 10 } }
        "antiparasitario que no sea bayer de 30kg".toList).searchFilters.weightMax = some 10 ∧
    ¬ ((30:ℚ) ≤ 10) := by
  decide

/-! ### Claim C10 — classification confidence -/

/-- C10 (counterexample): for the query "off" under the repository's shipped
configuration (no data CSVs, so only the hard-coded vocabulary exists), no
entity is detected and no numeric (dosage) filter is extracted, yet the
filters dict is non-empty (is_offer = True from the "off" keyword): classify
returns confidence 0.6 while the claim's formula — 0.1 only for numeric
filters — yields 0.5. -/
theorem C10_counterexample :
    (classify defaultLexicon "off".toList).confidence = 3/5 ∧
    (classify defaultLexicon "off".toList).filters.dosageValue = none ∧
    (classify defaultLexicon "off".toList).allEntities.length = 0 ∧
    claimConfidence 0 false = 1/2 ∧
    ((3:ℚ)/5 ≠ 1/2) := by
  decide

/-- C10 (amended): classify's confidence always lies in [0.5, 1.0]; a pure
small-talk query gets exactly 1.0; every other query gets
min(0.5 + 0.2 × entities + 0.1 × (1 if the extracted filter dict is non-empty
— dosage, presentation or offer/transfer flags, not only numeric filters —
else 0), 1.0). -/
theorem C10_amended_confidence (lex : Lexicon) (q : Str) :
    ((1:ℚ)/2 ≤ (classify lex q).confidence ∧ (classify lex q).confidence ≤ 1) ∧
    (classify lex q).confidence =
      (if detectIntent (normalizeText q) (cleanQuery (normalizeText q)) == "SMALLTALK".toList
          && !(mentionsProducts (cleanQuery (normalizeText q))) then 1
       else calculateConfidence (classify lex q).allEntities.length
              (classify lex q).filters.nonempty) := by
  by_cases hc : (detectIntent (normalizeText q) (cleanQuery (normalizeText q)) ==
      "SMALLTALK".toList && !(mentionsProducts (cleanQuery (normalizeText q)))) = true
  · constructor
    · simp only [classify, hc, if_true]
      norm_num
    · simp only [classify, hc, if_true]
  · have hc' : (detectIntent (normalizeText q) (cleanQuery (normalizeText q)) ==
        "SMALLTALK".toList && !(mentionsProducts (cleanQuery (normalizeText q)))) = false :=
      Bool.eq_false_iff.mpr hc
    constructor
    · simp only [classify, hc', Bool.false_eq_true, if_false]
      exact calculateConfidence_bounds _ _
    · simp only [classify, hc', Bool.false_eq_true, if_false]

/-! ### Claim C3 (amended) — what species validation actually does -/

theorem fixBrand_species (f : OptFilters) : (fixBrand f).species = f.species := by
  unfold fixBrand
  cases hb : f.brand with
  | none => rfl
  | some b0 => dsimp only; split_ifs <;> rfl

theorem fixBrand_presentation (f : OptFilters) :
    (fixBrand f).presentation = f.presentation := by
  unfold fixBrand
  cases hb : f.brand with
  | none => rfl
  | some b0 => dsimp only; split_ifs <;> rfl

theorem fixBrand_drug (f : OptFilters) : (fixBrand f).drug = f.drug := by
  unfold fixBrand
  cases hb : f.brand with
  | none => rfl
  | some b0 => dsimp only; split_ifs <;> rfl

theorem fixPresentation_species (f : OptFilters) (ql : Str) :
    (fixPresentation f ql).species = f.species := by
  unfold fixPresentation
  dsimp only
  split_ifs <;> rfl

theorem fixPresentation_drug (f : OptFilters) (ql : Str) :
    (fixPresentation f ql).drug = f.drug := by
  unfold fixPresentation
  dsimp only
  split_ifs <;> rfl

theorem fixDrug_species (f : OptFilters) : (fixDrug f).species = f.species := by
  simp only [fixDrug]
  split_ifs <;> rfl

theorem fixDrug_of_drug_none (f : OptFilters) (hd : f.drug = none) : fixDrug f = f := by
  unfold fixDrug
  rw [hd]
  rfl

theorem fixExcludeBrands_species (f : OptFilters) :
    (fixExcludeBrands f).species = f.species := by
  unfold fixExcludeBrands
  split_ifs <;> rfl

theorem fixExcludeBrands_presentation (f : OptFilters) :
    (fixExcludeBrands f).presentation = f.presentation := by
  unfold fixExcludeBrands
  split_ifs <;> rfl

theorem fixSpecies_eq (f : OptFilters) (ql : Str) (s : Str) (rest : List Str) (hs : s ≠ [])
    (h : f.species = .str s ∨ f.species = .list (s :: rest)) :
    fixSpecies f ql =
      (if lowerStr s ∈ PRESENTATION_KEYWORDS then
        { (if truthyStr f.presentation then f else { f with presentation := some s }) with
          species := .non }
      else if lowerStr s ∈ validSpecies then
        (if ¬ containsStr (lowerStr s) ql ∧ ¬ containsStr "perro".toList ql ∧
            ¬ containsStr "gato".toList ql
         then { f with species := .non } else { f with species := .str s })
      else { f with species := .non }) := by
  have hse : s.isEmpty = false := by
    cases s with
    | nil => exact absurd rfl hs
    | cons a l => rfl
  rcases h with h | h <;>
    (unfold fixSpecies; rw [h]; simp only [SpecVal.truthy, hse, List.isEmpty_cons,
      Bool.not_false, Bool.not_true, if_false, if_true, Bool.false_eq_true, ite_false])

/-- C3 (amended): for every oracle draft whose species value is a non-empty
string or a non-empty list (collapsed to its first element s), the mandatory
validation yields: species = None when s is a presentation keyword (moving s
into the empty presentation field, where it survives only if literally present
in the query); species = None when s is outside the hard-coded valid set
{perro, gato, canino, felino, bovino, equino, ave, porcino}; and otherwise
species = s exactly when s itself, or "perro", or "gato", occurs in the query
text - so a valid species value not present in the query survives whenever
"perro" or "gato" occurs (see the counterexample). -/
theorem C3_amended_species_validation (resp : LlmResponse) (q : Str) (s : Str)
    (rest : List Str)
    (h : resp.searchFilters.species = .str s ∨ resp.searchFilters.species = .list (s :: rest))
    (hs : s ≠ []) :
    ((postProcessResponse resp q).searchFilters.species =
      (if lowerStr s ∈ PRESENTATION_KEYWORDS then .non
       else if lowerStr s ∈ validSpecies ∧
           (containsStr (lowerStr s) (lowerStr q) = true ∨
            containsStr "perro".toList (lowerStr q) = true ∨
            containsStr "gato".toList (lowerStr q) = true) then .str s
       else .non)) ∧
    (resp.searchFilters.presentation = none → resp.searchFilters.drug = none →
      lowerStr s ∈ PRESENTATION_KEYWORDS →
      (postProcessResponse resp q).searchFilters.presentation =
        (if containsStr (lowerStr s) (lowerStr q) = true then some s else none)) := by
  have hb : (fixBrand resp.searchFilters).species = resp.searchFilters.species :=
    fixBrand_species _
  have hfix := fixSpecies_eq (fixBrand resp.searchFilters) (lowerStr q) s rest hs
    (by rw [hb]; exact h)
  have hout : (postProcessResponse resp q).searchFilters =
      fixExcludeBrands (fixDrug (fixPresentation
        (fixSpecies (fixBrand resp.searchFilters) (lowerStr q)) (lowerStr q))) := rfl
  constructor
  · rw [hout, fixExcludeBrands_species, fixDrug_species, fixPresentation_species, hfix]
    by_cases h1 : lowerStr s ∈ PRESENTATION_KEYWORDS
    · rw [if_pos h1, if_pos h1]
    · rw [if_neg h1, if_neg h1]
      by_cases h2 : lowerStr s ∈ validSpecies
      · rw [if_pos h2]
        by_cases h3 : ¬ containsStr (lowerStr s) (lowerStr q) = true ∧
            ¬ containsStr "perro".toList (lowerStr q) = true ∧
            ¬ containsStr "gato".toList (lowerStr q) = true
        · rw [if_pos h3, if_neg (by tauto)]
        · rw [if_neg h3, if_pos (by tauto)]
      · rw [if_neg h2, if_neg (by tauto)]
  · intro hp hd hk
    have hp1 : (fixBrand resp.searchFilters).presentation = none := by
      rw [fixBrand_presentation]; exact hp
    have hd1 : (fixBrand resp.searchFilters).drug = none := by
      rw [fixBrand_drug]; exact hd
    have h2 : fixSpecies (fixBrand resp.searchFilters) (lowerStr q) =
        { fixBrand resp.searchFilters with presentation := some s, species := .non } := by
      rw [hfix, if_pos hk, hp1]
      rfl
    have hse : s.isEmpty = false := by
      cases s with
      | nil => exact absurd rfl hs
      | cons a l => rfl
    have h3 : fixPresentation (fixSpecies (fixBrand resp.searchFilters) (lowerStr q))
        (lowerStr q) =
        (if containsStr (lowerStr s) (lowerStr q) = true then
          { fixBrand resp.searchFilters with presentation := some s, species := .non }
        else { fixBrand resp.searchFilters with presentation := none, species := .non }) := by
      rw [h2]
      unfold fixPresentation
      by_cases hc : containsStr (lowerStr s) (lowerStr q) = true
      · rw [if_pos hc]
        simp [truthyStr, hse, hc]
      · have hc' : containsStr (lowerStr s) (lowerStr q) = false := by
          cases hcs : containsStr (lowerStr s) (lowerStr q) with
          | false => rfl
          | true => exact absurd hcs hc
        rw [if_neg hc]
        simp [truthyStr, hse, hc']
    rw [hout, fixExcludeBrands_presentation]
    by_cases hc : containsStr (lowerStr s) (lowerStr q) = true
    · rw [if_pos hc]
      rw [h3, if_pos hc, fixDrug_of_drug_none _ (by exact hd1)]
    · rw [if_neg hc]
      rw [h3, if_neg hc, fixDrug_of_drug_none _ (by exact hd1)]

/-- C3 (witness): the draft species "gotas" with query "algo en gotas" —
species becomes None and presentation becomes "gotas" (the query contains the
term, so fix #3 keeps it). -/
theorem C3_witness :
    (postProcessResponse { searchFilters := { species := .str "gotas".toList } }
        "algo en gotas".toList).searchFilters.species = .non ∧
    (postProcessResponse { searchFilters := { species := .str "gotas".toList } }
        "algo en gotas".toList).searchFilters.presentation = some "gotas".toList := by
  have h := C3_amended_species_validation
      { searchFilters := { species := .str "gotas".toList } } "algo en gotas".toList
      "gotas".toList [] (Or.inl rfl) (by decide)
  constructor
  · rw [h.1]; decide
  · rw [h.2 rfl rfl (by decide)]; decide

/-! ### Claim C8 — weight-fit sub-score -/

theorem scoreWeightFit_overlap_eq (pmin pmax tmin tmax : ℚ)
    (hov : ¬ (pmax < tmin ∨ pmin > tmax)) (hni : ¬ (pmin ≥ tmin ∧ pmax ≤ tmax))
    (ht : 0 < tmax - tmin) :
    scoreWeightFit (pmin, pmax) tmin tmax =
      (if (min pmax tmax - max pmin tmin) / (tmax - tmin) > 7/10 then 7/2
       else if (min pmax tmax - max pmin tmin) / (tmax - tmin) > 1/2 then 3
       else if (min pmax tmax - max pmin tmin) / (tmax - tmin) > 3/10 then 5/2
       else 2) := by
  unfold scoreWeightFit
  rw [if_neg hni, if_pos hov]
  simp only [gt_iff_lt, ht, if_true]

theorem scoreWeightFit_disjoint_eq (pmin pmax tmin tmax : ℚ)
    (hd : pmax < tmin ∨ pmin > tmax) (hni : ¬ (pmin ≥ tmin ∧ pmax ≤ tmax))
    (ht : 0 < tmax - tmin) :
    scoreWeightFit (pmin, pmax) tmin tmax =
      (if (if pmax < tmin then tmin - pmax else pmin - tmax) / (tmax - tmin) < 1/5 then 2
       else if (if pmax < tmin then tmin - pmax else pmin - tmax) / (tmax - tmin) < 1/2 then 1
       else 0) := by
  unfold scoreWeightFit
  rw [if_neg hni, if_neg (by tauto)]
  simp only [gt_iff_lt, ht, if_true]

/-- C8: the weight-fit sub-score: 4.0 when the candidate range lies inside the
requested range; a value in [2.0, 3.5], weakly increasing in the overlap
fraction of the requested span, when the ranges overlap without containment;
and, for disjoint ranges, 2.0 when the gap relative to the requested span is
below 0.2, 1.0 below 0.5, and 0.0 otherwise. -/
theorem C8_weight_fit (tmin tmax : ℚ) (h : tmin < tmax) :
    (∀ pmin pmax : ℚ, tmin ≤ pmin → pmax ≤ tmax →
      scoreWeightFit (pmin, pmax) tmin tmax = 4) ∧
    (∀ pmin pmax : ℚ, ¬ (pmax < tmin ∨ pmin > tmax) → ¬ (tmin ≤ pmin ∧ pmax ≤ tmax) →
      2 ≤ scoreWeightFit (pmin, pmax) tmin tmax ∧
        scoreWeightFit (pmin, pmax) tmin tmax ≤ 7/2) ∧
    (∀ pmin pmax qmin qmax : ℚ,
      ¬ (pmax < tmin ∨ pmin > tmax) → ¬ (tmin ≤ pmin ∧ pmax ≤ tmax) →
      ¬ (qmax < tmin ∨ qmin > tmax) → ¬ (tmin ≤ qmin ∧ qmax ≤ tmax) →
      (min pmax tmax - max pmin tmin) / (tmax - tmin) ≤
        (min qmax tmax - max qmin tmin) / (tmax - tmin) →
      scoreWeightFit (pmin, pmax) tmin tmax ≤ scoreWeightFit (qmin, qmax) tmin tmax) ∧
    (∀ pmin pmax : ℚ, pmin ≤ pmax → (pmax < tmin ∨ pmin > tmax) →
      ((if pmax < tmin then tmin - pmax else pmin - tmax) / (tmax - tmin) < 1/5 →
        scoreWeightFit (pmin, pmax) tmin tmax = 2) ∧
      ((1:ℚ)/5 ≤ (if pmax < tmin then tmin - pmax else pmin - tmax) / (tmax - tmin) →
       (if pmax < tmin then tmin - pmax else pmin - tmax) / (tmax - tmin) < 1/2 →
        scoreWeightFit (pmin, pmax) tmin tmax = 1) ∧
      ((1:ℚ)/2 ≤ (if pmax < tmin then tmin - pmax else pmin - tmax) / (tmax - tmin) →
        scoreWeightFit (pmin, pmax) tmin tmax = 0)) := by
  have ht : 0 < tmax - tmin := by linarith
  refine ⟨?_, ?_, ?_, ?_⟩
  · intro pmin pmax h1 h2
    unfold scoreWeightFit
    rw [if_pos ⟨h1, h2⟩]
  · intro pmin pmax hov hni
    rw [scoreWeightFit_overlap_eq pmin pmax tmin tmax hov hni ht]
    split_ifs <;> norm_num
  · intro pmin pmax qmin qmax hov1 hni1 hov2 hni2 hle
    rw [scoreWeightFit_overlap_eq pmin pmax tmin tmax hov1 hni1 ht,
      scoreWeightFit_overlap_eq qmin qmax tmin tmax hov2 hni2 ht]
    split_ifs <;> linarith
  · intro pmin pmax hpr hd
    have hni : ¬ (pmin ≥ tmin ∧ pmax ≤ tmax) := by
      rcases hd with hd | hd
      · intro hc; exact absurd hd (by linarith [hc.1])
      · intro hc; exact absurd hd (by simp only [gt_iff_lt, not_lt]; linarith [hc.2])
    rw [scoreWeightFit_disjoint_eq pmin pmax tmin tmax hd hni ht]
    refine ⟨fun h1 => ?_, fun h1 h2 => ?_, fun h1 => ?_⟩
    · rw [if_pos h1]
    · rw [if_neg (by linarith), if_pos h2]
    · rw [if_neg (by linarith), if_neg (by linarith)]

/-- C8 (witness): requested range [10, 20]: candidate [12, 18] scores 4.0;
candidate [5, 12] (overlap fraction 0.2) lands in [2.0, 3.5]; candidate
[30, 40] (relative gap 1.0 ≥ 0.5) scores 0.0. -/
theorem C8_witness :
    scoreWeightFit (12, 18) 10 20 = 4 ∧
    (2 ≤ scoreWeightFit (5, 12) 10 20 ∧ scoreWeightFit (5, 12) 10 20 ≤ 7/2) ∧
    scoreWeightFit (30, 40) 10 20 = 0 := by
  have h := C8_weight_fit 10 20 (by norm_num)
  exact ⟨h.1 12 18 (by norm_num) (by norm_num),
    h.2.1 5 12 (by norm_num) (by norm_num),
    (h.2.2.2 30 40 (by norm_num) (by norm_num)).2.2 (by norm_num)⟩

/-! ### Claim C9 — malformed weight-range metadata -/

/-- C9: an unparsable weight_range string is treated as no information, never
an error: _parse_weight_range is total and returns None on it (for example on
"10-veinte"), the candidate's weight-fit sub-score is then 0.0, and the
candidate is still scored and kept — the scoring stage returns exactly one
scored candidate per raw row. -/
theorem C9_malformed_weight_range (rows : List Row) (f : SearchFilters) (q : Str) :
    (applyGradualScoringConditional rows f q).length = rows.length ∧
    parseWeightRange (some "10-veinte".toList) = none ∧
    ∀ row ∈ rows, parseWeightRange row.metadata.weightRange = none →
      (scoreRow f q row).debug.weightFit = 0 ∧
      scoreRow f q row ∈ applyGradualScoringConditional rows f q := by
  refine ⟨List.length_map _ _, by decide, ?_⟩
  intro row hrow hparse
  constructor
  · simp only [scoreRow]
    rw [hparse]
    split <;> rfl
  · exact List.mem_map_of_mem _ hrow

/-- C9 (witness): a candidate whose weight_range is "10-veinte", under an
active weight filter, is scored with weight-fit 0.0 and kept. -/
theorem C9_witness :
    (scoreRow { weightMin := some 5 } []
        { metadata := { weightRange := some "10-veinte".toList } }).debug.weightFit = 0 ∧
    scoreRow { weightMin := some 5 } []
        { metadata := { weightRange := some "10-veinte".toList } } ∈
      applyGradualScoringConditional
        [{ metadata := { weightRange := some "10-veinte".toList } }]
        { weightMin := some 5 } [] := by
  have h := C9_malformed_weight_range
    [{ metadata := { weightRange := some "10-veinte".toList } }] { weightMin := some 5 } []
  exact h.2.2 _ (List.mem_singleton_self _) (by decide)

/-! ### Claim C4 — word boundaries of exact matching -/

theorem indexFromGo_occursAt (pat s : Str) :
    ∀ (fuel start pos : Nat), indexFromGo pat s fuel start = some pos →
      occursAt pat s pos = true := by
  intro fuel
  induction fuel with
  | zero => intro start pos h; cases h
  | succ n ih =>
    intro start pos h
    unfold indexFromGo at h
    by_cases h1 : start + pat.length ≤ s.length
    · rw [if_pos h1] at h
      by_cases h2 : occursAt pat s start = true
      · rw [if_pos h2] at h
        cases h
        exact h2
      · rw [if_neg h2] at h
        exact ih (start + 1) pos h
    · rw [if_neg h1] at h
      cases h

theorem indexFrom_occursAt (pat s : Str) (start pos : Nat)
    (h : indexFrom pat s start = some pos) : occursAt pat s pos = true :=
  indexFromGo_occursAt pat s _ start pos h

theorem scanItemGo_sound (tname item il ql : Str) :
    ∀ (fuel start : Nat) (ms : List EntityMatch) (m : EntityMatch),
      m ∈ scanItemGo tname item il ql fuel start ms →
      m ∈ ms ∨ (m.entityType = tname ∧ m.entityValue = item ∧ m.length = il.length ∧
        occursAt il ql m.position = true ∧ boundaryOk ql m.position il.length = true) := by
  intro fuel
  induction fuel with
  | zero => intro start ms m h; exact Or.inl h
  | succ n ih =>
    intro start ms m h
    unfold scanItemGo at h
    cases hidx : indexFrom il ql start with
    | none => rw [hidx] at h; exact Or.inl h
    | some pos =>
      rw [hidx] at h
      dsimp only at h
      rcases ih (pos + 1) _ m h with hmem | hP
      · by_cases hcond :
          (boundaryOk ql pos il.length && !(isHardOverlapping pos il.length ms)) = true
        · rw [if_pos hcond] at hmem
          rcases List.mem_append.mp hmem with h1 | h2
          · exact Or.inl h1
          · have hm : m = ⟨tname, item, pos, il.length, item⟩ := List.mem_singleton.mp h2
            subst hm
            right
            have hb : boundaryOk ql pos il.length = true :=
              ((Bool.and_eq_true _ _).mp hcond).1
            exact ⟨rfl, rfl, rfl, indexFrom_occursAt il ql start pos hidx, hb⟩
        · rw [if_neg hcond] at hmem
          exact Or.inl hmem
      · exact Or.inr hP

theorem scanItem_sound (tname item ql : Str) (minLen : Nat) (ms : List EntityMatch)
    (m : EntityMatch) (h : m ∈ scanItem tname item ql minLen ms) :
    m ∈ ms ∨ (m.entityType = tname ∧ m.entityValue = item ∧
      m.length = (lowerStr item).length ∧
      occursAt (lowerStr item) ql m.position = true ∧
      boundaryOk ql m.position (lowerStr item).length = true) := by
  unfold scanItem at h
  dsimp only at h
  split_ifs at h with h1 h2
  · exact Or.inl h
  · exact Or.inl h
  · exact scanItemGo_sound tname item (lowerStr item) ql (ql.length + 1) 0 ms m h

theorem searchExact_sound (tname : Str) (ql : Str) (minLen : Nat) :
    ∀ (items : List Str) (ms : List EntityMatch) (m : EntityMatch),
      m ∈ searchExact tname items ql minLen ms →
      m ∈ ms ∨ ∃ item, m.entityType = tname ∧ m.entityValue = item ∧
        m.length = (lowerStr item).length ∧
        occursAt (lowerStr item) ql m.position = true ∧
        boundaryOk ql m.position (lowerStr item).length = true := by
  intro items
  induction items with
  | nil => intro ms m h; exact Or.inl h
  | cons it rest ih =>
    intro ms m h
    have h' : m ∈ searchExact tname rest ql minLen (scanItem tname it ql minLen ms) := h
    rcases ih (scanItem tname it ql minLen ms) m h' with hmem | hP
    · rcases scanItem_sound tname it ql minLen ms m hmem with h1 | h2
      · exact Or.inl h1
      · exact Or.inr ⟨it, h2⟩
    · exact Or.inr hP

theorem searchExact_preserves (tname : Str) (items : List Str) (ql : Str)
    (ms : List EntityMatch) (hms : ∀ m ∈ ms, exactSpanOk ql m) :
    ∀ m ∈ searchExact tname items ql 3 ms, exactSpanOk ql m := by
  intro m hm
  rcases searchExact_sound tname ql 3 items ms m hm with h1 | ⟨item, h2, h3, h4, h5, h6⟩
  · exact hms m h1
  · refine ⟨?_, ?_, ?_⟩
    · rw [h3]; exact h5
    · rw [h4]; exact h6
    · rw [h4, h3]

theorem exactStage_sound (lex : Lexicon) (ql : Str) (m : EntityMatch)
    (h : m ∈ exactStage lex ql) : exactSpanOk ql m := by
  unfold exactStage at h
  have h0 : ∀ m' ∈ ([] : List EntityMatch), exactSpanOk ql m' := by
    intro m' hm'; cases hm'
  exact searchExact_preserves tESPECIE lex.especies ql _
    (searchExact_preserves tCONCEPTO lex.conceptos ql _
      (searchExact_preserves tCATEGORIA lex.categorias ql _
        (searchExact_preserves tACCION lex.acciones ql _
          (searchExact_preserves tDROGA lex.drogas ql _
            (searchExact_preserves tLabo lex.laboratorios ql _ h0))))) m h

/-- C4: every span the exact-match stage records sits at a genuine occurrence
of its lower-cased lexicon value whose start and end are at the string
boundary or next to a non-alphanumeric character; in particular, with "GATO"
in the species vocabulary, the query "gatos" yields no exact span while
"mi gato" yields exactly the span at offset 3 of length 4. -/
theorem C4_exact_match_boundary :
    (∀ (lex : Lexicon) (ql : Str) (m : EntityMatch), m ∈ exactStage lex ql →
      occursAt (lowerStr m.entityValue) ql m.position = true ∧
      boundaryOk ql m.position m.length = true) ∧
    exactStage { especies := ["GATO".toList] } "gatos".toList = [] ∧
    exactStage { especies := ["GATO".toList] } "mi gato".toList =
      [⟨tESPECIE, "GATO".toList, 3, 4, "GATO".toList⟩] := by
  refine ⟨?_, by decide, by decide⟩
  intro lex ql m h
  have hs := exactStage_sound lex ql m h
  exact ⟨hs.1, hs.2.1⟩

/-- C4 (witness): for the query "mi gato", the recorded GATO span (offset 3,
length 4) satisfies the occurrence and boundary properties. -/
theorem C4_witness :
    occursAt (lowerStr "GATO".toList) "mi gato".toList 3 = true ∧
    boundaryOk "mi gato".toList 3 4 = true := by
  have h := C4_exact_match_boundary.1 { especies := ["GATO".toList] } "mi gato".toList
    ⟨tESPECIE, "GATO".toList, 3, 4, "GATO".toList⟩ (by decide)
  exact h

/-! ### Claim C5 — how products are matched -/

theorem productStep_mono (queryWords : List Str) (ql : Str) (ms : List EntityMatch)
    (prod : Str) (m : EntityMatch) (h : m ∈ ms) : m ∈ productStep queryWords ql ms prod := by
  unfold productStep
  dsimp only
  repeat' split
  all_goals first | exact h | exact List.mem_append_left _ h

theorem productStep_key (queryWords : List Str) (ql : Str) (ms : List EntityMatch)
    (prod : Str) (hc : containsStr (lowerStr prod) ql = true) :
    ∃ m ∈ productStep queryWords ql ms prod,
      m.entityType = tPRODUCTO ∧ m.entityValue = prod := by
  unfold containsStr at hc
  cases h0 : indexFrom (lowerStr prod) ql 0 with
  | none => rw [h0] at hc; simp at hc
  | some idx =>
    refine ⟨⟨tPRODUCTO, prod, idx, prod.length, prod⟩, ?_, rfl, rfl⟩
    unfold productStep
    simp only [h0]
    exact List.mem_append_right _ (List.mem_singleton_self _)

theorem productStage_mono (queryWords : List Str) (ql : Str) :
    ∀ (productos : List Str) (ms : List EntityMatch) (m : EntityMatch),
      m ∈ ms → m ∈ productStage productos queryWords ql ms := by
  intro productos
  induction productos with
  | nil => intro ms m h; exact h
  | cons p rest ih =>
    intro ms m h
    show m ∈ productStage rest queryWords ql (productStep queryWords ql ms p)
    exact ih (productStep queryWords ql ms p) m (productStep_mono queryWords ql ms p m h)

theorem productStage_key (queryWords : List Str) (ql : Str) (prod : Str)
    (hc : containsStr (lowerStr prod) ql = true) :
    ∀ (productos : List Str), prod ∈ productos →
      ∀ ms, ∃ m ∈ productStage productos queryWords ql ms,
        m.entityType = tPRODUCTO ∧ m.entityValue = prod := by
  intro productos
  induction productos with
  | nil => intro hp; cases hp
  | cons p rest ih =>
    intro hp ms
    rcases List.mem_cons.mp hp with rfl | hmem
    · rcases productStep_key queryWords ql ms prod hc with ⟨m, hm, hk⟩
      refine ⟨m, ?_, hk⟩
      show m ∈ productStage rest queryWords ql (productStep queryWords ql ms prod)
      exact productStage_mono queryWords ql rest (productStep queryWords ql ms prod) m hm
    · exact ih hmem (productStep queryWords ql ms p)

/-- C5 (amended): the extractor computes no token-coverage score at all;
instead, a PRODUCT span is recorded for every product whose full lower-cased
name occurs in the query — without any cap —, and products not fully present
are tried by root prefix and root fuzzy matching.  Formally: every lexicon
product fully contained in the lower-cased query contributes an output span
with its exact name. -/
theorem C5_amended_product_matching (lex : Lexicon) (qc : Str) (prod : Str)
    (hp : prod ∈ lex.productos) (hc : containsStr (lowerStr prod) (lowerStr qc) = true) :
    ∃ m ∈ findAllEntities lex qc, m.entityType = tPRODUCTO ∧ m.entityValue = prod := by
  rcases productStage_key (splitWs qc) (lowerStr qc) prod hc lex.productos hp
      (fuzzyStage lex (splitWs qc) (lowerStr qc) (exactStage lex (lowerStr qc))) with
    ⟨m, hm, hk1, hk2⟩
  have hsorted : m ∈ sortStable rankKeyLt (productStage lex.productos (splitWs qc)
      (lowerStr qc) (fuzzyStage lex (splitWs qc) (lowerStr qc)
        (exactStage lex (lowerStr qc)))) := mem_sortStable.mpr hm
  rcases dedupMatches_key_exists _ [] (tPRODUCTO, prod)
      ⟨m, hsorted, by rw [hk1, hk2]⟩ (by simp) with ⟨m', hm', hk'⟩
  exact ⟨m', hm', (Prod.ext_iff.mp hk').1, (Prod.ext_iff.mp hk').2⟩

/-- C5 (witness): with BRAVECTO in the product vocabulary, the query
"bravecto para perros" yields a PRODUCTO span with value BRAVECTO. -/
theorem C5_witness :
    ∃ m ∈ findAllEntities { productos := ["BRAVECTO".toList] }
        "bravecto para perros".toList,
      m.entityType = tPRODUCTO ∧ m.entityValue = "BRAVECTO".toList :=
  C5_amended_product_matching { productos := ["BRAVECTO".toList] }
    "bravecto para perros".toList "BRAVECTO".toList (by decide) (by decide)

/-- C5 (counterexample): a query mentioning 41 distinct products makes the
extractor record 41 PRODUCT spans (each full name is a substring, appended
without any cap), while the claimed coverage match keeps at most 40 — so
extract does not perform the claimed coverage-and-top-40 product matching. -/
theorem C5_counterexample :
    (findAllEntities lex41 q41).countP (fun m => m.entityType == tPRODUCTO) = 41 ∧
    (specCoverageProducts prods41 q41).length ≤ 40 ∧ (40 < 41) := by
  exact ⟨by decide, by decide, by decide⟩

end Pompi
